import Mathlib

/-!
Shallow embedding of the gantz-cli tunnel session and protocol-dispatch engine.

Source layout mirrored here:
* namespace `config`   — internal/config/config.go (data model of gantz.yaml)
* namespace `executor` — internal/executor (process and HTTP invokers; the
  side-effecting parts — launching a process, performing an HTTP request —
  are abstracted into explicit outcome parameters, and the pure tails of the
  `Execute` functions are translated verbatim)
* namespace `tunnel`   — internal/tunnel/client.go (wire envelope, RPC types,
  multiplexer, session lifecycle)
* namespace `mcp`      — internal/mcp/server.go (protocol dispatcher)

JSON documents are modelled by the inductive `JValue`; Go's `json.RawMessage`
fields become `Option JValue` (`none` = the field was absent / the nil slice).
Go's `json.Unmarshal` into the concrete structs used by the code is translated
field by field (absent field → zero value, `null` → no-op, type mismatch →
error). Go maps are modelled as association lists with last-writer-wins
insertion (`setField`) and last-binding lookup (`lookupLast`), matching Go's
duplicate-key decoding behaviour.
-/

/-- A JSON value. Numbers are modelled as `Int` (the claims only inspect ids,
codes and flags; no claim depends on fractional numerics). -/
inductive JValue where
  | null
  | bool (b : Bool)
  | num (n : Int)
  | str (s : String)
  | arr (elems : List JValue)
  | obj (fields : List (String × JValue))

/-- Last-binding lookup in a JSON object's field list: Go's decoder lets a
later duplicate key overwrite an earlier one. -/
def lookupLast (fs : List (String × JValue)) (k : String) : Option JValue :=
  fs.foldl (fun acc kv => if kv.1 = k then some kv.2 else acc) none

/-- Whether an association list already binds key `k`. -/
def hasKey (fs : List (String × JValue)) (k : String) : Bool :=
  fs.any (fun kv => kv.1 == k)

/-- Go map assignment `m[k] = v` on the association-list model: overwrite the
existing binding if present, otherwise append. -/
def setField (fs : List (String × JValue)) (k : String) (v : JValue) :
    List (String × JValue) :=
  if hasKey fs k then fs.map (fun kv => if kv.1 = k then (k, v) else kv)
  else fs ++ [(k, v)]

/-- Field projection out of a JSON value: defined only on objects. -/
def jsonField (v : JValue) (k : String) : Option JValue :=
  match v with
  | .obj fs => lookupLast fs k
  | _ => none

/-- Arguments of a tool call: Go's `map[string]interface{}`. -/
abbrev Args := List (String × JValue)

/-- Go JSON-object → `map[string]interface{}`: keys inserted in order,
duplicates last-wins. -/
def objToMap (fs : List (String × JValue)) : Args :=
  fs.foldl (fun acc kv => setField acc kv.1 kv.2) []

namespace config

/-- internal/config/config.go `Parameter`. -/
structure Parameter where
  name : String
  type : String
  description : String
  required : Bool
  default : String

/-- internal/config/config.go `ScriptConfig`. -/
structure ScriptConfig where
  command : String
  args : List String
  shell : String
  workingDir : String
  timeout : String

/-- internal/config/config.go `HTTPConfig`. -/
structure HTTPConfig where
  method : String
  url : String
  headers : List (String × String)
  body : String
  timeout : String
  extractJSON : String

/-- internal/config/config.go `Tool`. -/
structure Tool where
  name : String
  description : String
  parameters : List Parameter
  script : ScriptConfig
  http : HTTPConfig
  environment : List (String × String)

/-- internal/config/config.go `ServerConfig`. -/
structure ServerConfig where
  port : Int

/-- internal/config/config.go `Config`. -/
structure Config where
  name : String
  description : String
  version : String
  server : ServerConfig
  tools : List Tool

/-- internal/config/config.go `GetTool`: first tool whose name matches. -/
def Config.GetTool (c : Config) (name : String) : Option Tool :=
  c.tools.find? (fun t => t.name == name)

/-- internal/config/config.go `IsHTTP`. -/
def Tool.IsHTTP (t : Tool) : Bool :=
  t.http.url != ""

end config

namespace executor

/-- internal/executor `Result`. The Go struct also carries a `Duration`
(wall-clock elapsed time); real time is not representable in this embedding
and no claim references it, so that field is omitted. `Error` (a Go `error`)
is modelled by its message. -/
structure Result where
  output : String
  exitCode : Int
  error : Option String

/-- Outcome of `cmd.Run()` in `Executor.Execute`: `none` models a nil error,
`exitError` a `*exec.ExitError` carrying the process exit code, `otherError`
any other failure (start failure, timeout kill, ...), for which the code uses
exit code `-1`. -/
inductive RunError where
  | exitError (code : Int) (msg : String)
  | otherError (msg : String)

/-- Go's `unicode.IsSpace` restricted to the ASCII and Latin-1 white space
characters (space, tab, newline, vertical tab, form feed, carriage return,
next line, no-break space); the remaining Unicode space classes are not
modelled and are not exercised by any claim. -/
def goIsSpace (c : Char) : Bool :=
  c == ' ' || c == '\t' || c == '\n' || c == '\x0b' || c == '\x0c' || c == '\r' ||
  c == Char.ofNat 0x85 || c == Char.ofNat 0xa0

/-- `strings.TrimSpace`: drop leading and trailing white space. -/
def trimSpace (s : String) : String :=
  String.mk (((s.data.dropWhile goIsSpace).reverse.dropWhile goIsSpace).reverse)

/-- Tail of internal/executor `Executor.Execute` (process kind), translated
from the point where `cmd.Run()` has returned: `stdout`/`stderr` are the
captured buffers and `runError` is `cmd.Run()`'s outcome. The construction of
`cmd` itself (argument substitution, environment, shell selection) only feeds
the opaque process launch and is not read by the result mapping. -/
def Executor.Execute (stdout stderr : String) (runError : Option RunError) :
    Result :=
  let output := stdout
  let output :=
    if stderr ≠ "" then (if output ≠ "" then output ++ "\n" else output) ++ stderr
    else output
  let base : Result := { output := trimSpace output, exitCode := 0, error := none }
  match runError with
  | none => base
  | some (.exitError code msg) => { base with exitCode := code, error := some msg }
  | some (.otherError msg) => { base with exitCode := -1, error := some msg }

/-- Outcome of the side-effecting phase of `HTTPExecutor.Execute`:
request construction, `client.Do`, and reading the body. On `success`,
`output` is the response body after the optional `extract_json` step (that
step re-parses the opaque body and only rewrites the textual output; no claim
reads the extracted text, so it is folded into this parameter). -/
inductive HTTPOutcome where
  | createFailed (msg : String)
  | requestFailed (msg : String)
  | readFailed (msg : String)
  | success (statusCode : Int) (output : String)

/-- internal/executor `HTTPExecutor.Execute`, translated branch by branch
from the source: each failure returns exit code `-1` with a prefixed message,
and a completed request maps the HTTP status to exit code 1 when `>= 400`
(0 otherwise) with the trimmed output and a nil error. -/
def HTTPExecutor.Execute (outcome : HTTPOutcome) : Result :=
  match outcome with
  | .createFailed msg =>
      { output := "Failed to create request: " ++ msg, exitCode := -1, error := some msg }
  | .requestFailed msg =>
      { output := "Request failed: " ++ msg, exitCode := -1, error := some msg }
  | .readFailed msg =>
      { output := "Failed to read response: " ++ msg, exitCode := -1, error := some msg }
  | .success statusCode output =>
      let exitCode : Int := if statusCode ≥ 400 then 1 else 0
      { output := trimSpace output, exitCode := exitCode, error := none }

end executor

namespace tunnel

/-- internal/tunnel/client.go `MCPRequest`. `ID interface{}` becomes
`Option JValue` (`none` = nil interface, i.e. absent or JSON `null`);
`Params json.RawMessage` becomes `Option JValue` (`none` = nil slice). -/
structure MCPRequest where
  jsonrpc : String
  id : Option JValue
  method : String
  params : Option JValue

/-- internal/tunnel/client.go `MCPError`. -/
structure MCPError where
  code : Int
  message : String
  data : Option JValue

/-- internal/tunnel/client.go `MCPResponse`. -/
structure MCPResponse where
  jsonrpc : String
  id : Option JValue
  result : Option JValue
  error : Option MCPError

/-- internal/tunnel/client.go `TunnelMessage` (the wire envelope). `payload`
is `none` when the frame had no payload; when present it is the raw JSON
subtree, which is well-formed JSON because the envelope itself decoded. -/
structure TunnelMessage where
  type : String := ""
  tunnelID : String := ""
  tunnelURL : String := ""
  requestID : String := ""
  payload : Option JValue := none
  error : String := ""
  clientIP : String := ""

/-- `json.Unmarshal` into a `string`-typed struct field: absent or `null`
leaves the zero value, a JSON string is taken verbatim, anything else is a
type error. -/
def getStringField (fs : List (String × JValue)) (k : String) :
    Except String String :=
  match lookupLast fs k with
  | none => .ok ""
  | some .null => .ok ""
  | some (.str s) => .ok s
  | some _ => .error ("cannot unmarshal field " ++ k)

/-- `json.Unmarshal(msg.Payload, &req)` for `MCPRequest`: a nil payload or a
non-object (other than `null`) fails; on an object, `jsonrpc` and `method`
must be strings, `id` takes any value (`null` → nil interface), `params`
keeps the raw subtree. -/
def unmarshalMCPRequest : Option JValue → Except String MCPRequest
  | none => .error "unexpected end of JSON input"
  | some .null => .ok { jsonrpc := "", id := none, method := "", params := none }
  | some (.obj fs) => do
      let j ← getStringField fs "jsonrpc"
      let m ← getStringField fs "method"
      let i := match lookupLast fs "id" with
        | some .null => none
        | some v => some v
        | none => none
      .ok { jsonrpc := j, id := i, method := m, params := lookupLast fs "params" }
  | some _ => .error "cannot unmarshal into MCPRequest"

/-- `json.Marshal` of `MCPError` (fields in declaration order; `data` has
`omitempty` and is dropped when nil). -/
def marshalMCPError (e : MCPError) : JValue :=
  .obj ([("code", JValue.num e.code), ("message", JValue.str e.message)]
    ++ (match e.data with | some d => [("data", d)] | none => []))

/-- `json.Marshal` of `MCPResponse` (fields in declaration order; `id`,
`result`, `error` have `omitempty` and are dropped exactly when the
interface/pointer is nil). -/
def marshalMCPResponse (r : MCPResponse) : JValue :=
  .obj ([("jsonrpc", JValue.str r.jsonrpc)]
    ++ (match r.id with | some v => [("id", v)] | none => [])
    ++ (match r.result with | some v => [("result", v)] | none => [])
    ++ (match r.error with | some e => [("error", marshalMCPError e)] | none => []))

/-- internal/tunnel/client.go `sendResponse`: marshal the response and write
a `response` envelope re-using the original `request_id`. A nil `*MCPResponse`
marshals to JSON `null`. The write itself (mutex + `WriteJSON`) is the
side effect; its frame is the returned value. -/
def sendResponse (requestID : String) (resp : Option MCPResponse) : TunnelMessage :=
  { type := "response", requestID := requestID,
    payload := some (match resp with | some r => marshalMCPResponse r | none => JValue.null) }

/-- internal/tunnel/client.go `sendError`: an error response with no `ID`. -/
def sendError (requestID : String) (code : Int) (message : String) : TunnelMessage :=
  sendResponse requestID
    (some { jsonrpc := "2.0", id := none, result := none,
            error := some { code := code, message := message, data := none } })

end tunnel

namespace tunnel

/-- One iteration's input to the read loop `handleMessages`: a decoded frame,
a close frame carrying `CloseNormalClosure`/`CloseGoingAway` (the
`IsCloseError` branch), or any other read failure. -/
inductive ReadEvent where
  | frame (msg : TunnelMessage)
  | closeNormal
  | readError (msg : String)

/-- How the read loop terminated: silently on a normal-closure/going-away
signal, or after printing the read error. -/
inductive LoopExit where
  | peerClosed
  | errorLogged (msg : String)

/-- Observable effect of one read-loop iteration: an envelope written to the
connection (a response or a pong), or the `client_connected` callback firing. -/
inductive LoopEffect where
  | wrote (msg : TunnelMessage)
  | clientConnected (ip : String)

/-- The inline `pong` reply and the keepalive frame. -/
def pongMessage : TunnelMessage := { type := "pong" }

/-- internal/tunnel/client.go `handleRequest`: decode the embedded MCP
request from the payload (`-32700` on failure), hand it to the MCP handler
(`-32603` if the handler returns an error), otherwise forward its response;
always correlated to the envelope's `request_id`. The handler argument models
the `MCPHandler` interface: a pair (possibly-nil response, possibly-nil
error). -/
def Client.handleRequest
    (handler : MCPRequest → Option MCPResponse × Option String)
    (msg : TunnelMessage) : TunnelMessage :=
  match unmarshalMCPRequest msg.payload with
  | .error _ => sendError msg.requestID (-32700) "Parse error"
  | .ok req =>
      match handler req with
      | (_, some e) => sendError msg.requestID (-32603) e
      | (resp, none) => sendResponse msg.requestID resp

/-- internal/tunnel/client.go `handleMessages`, the read loop, over an
explicit list of read events. Returns the effects produced and `none` while
the loop is still blocked reading (input exhausted), or `some exit` once a
close/error event ends it. Concurrent `go handleRequest` scheduling is
linearized: each request's response appears at its arrival position.
`cbRegistered` models `c.onClientConnected != nil`. -/
def Client.handleMessages
    (handler : MCPRequest → Option MCPResponse × Option String)
    (cbRegistered : Bool) :
    List ReadEvent → List LoopEffect × Option LoopExit
  | [] => ([], none)
  | .closeNormal :: _ => ([], some .peerClosed)
  | .readError m :: _ => ([], some (.errorLogged m))
  | .frame msg :: rest =>
      let effs : List LoopEffect :=
        if msg.type = "request" then [.wrote (Client.handleRequest handler msg)]
        else if msg.type = "ping" then [.wrote pongMessage]
        else if msg.type = "client_connected" then
          (if cbRegistered && msg.clientIP != "" then [.clientConnected msg.clientIP]
           else [])
        else []
      let (moreEffs, exit) := Client.handleMessages handler cbRegistered rest
      (effs ++ moreEffs, exit)

/-- internal/tunnel/client.go `Wait`: `<-c.done` then `return nil`. The
argument is the read-loop exit that closed the `done` channel; the source
returns nil whatever it was. -/
def Client.Wait (exit : LoopExit) : Option String :=
  none

/-- Outcome of `websocket.DefaultDialer.Dial` plus the first `ReadJSON` in
`Connect`: either the dial failed (with whether an HTTP response was
attached and its status code), or it connected and the first read yielded an
error or a frame. -/
inductive DialOutcome where
  | dialFailed (hasResp : Bool) (statusCode : Int) (errMsg : String)
  | connected (firstRead : Except String TunnelMessage)

/-- What `Connect` did: its return value, whether it closed the socket, and
whether it launched the two background goroutines (read loop, keepalive). -/
structure ConnectResult where
  ret : Except String String
  connClosed : Bool
  readLoopStarted : Bool
  keepaliveStarted : Bool

/-- internal/tunnel/client.go `Connect`, branch by branch: a dial failure
with an HTTP 426 response reports a version rejection, any other dial
failure reports `dial relay`; a failed first read closes the socket; a first
frame whose type is not `registered` closes the socket and fails; otherwise
the tunnel URL is recorded and both background loops start. -/
def Client.Connect (d : DialOutcome) : ConnectResult :=
  match d with
  | .dialFailed hasResp statusCode _errMsg =>
      if hasResp && statusCode == 426 then
        { ret := .error "version outdated - run: gantz update",
          connClosed := false, readLoopStarted := false, keepaliveStarted := false }
      else
        { ret := .error ("dial relay: " ++ _errMsg),
          connClosed := false, readLoopStarted := false, keepaliveStarted := false }
  | .connected (.error m) =>
      { ret := .error ("read registration: " ++ m),
        connClosed := true, readLoopStarted := false, keepaliveStarted := false }
  | .connected (.ok msg) =>
      if msg.type ≠ "registered" then
        { ret := .error ("unexpected message type: " ++ msg.type),
          connClosed := true, readLoopStarted := false, keepaliveStarted := false }
      else
        { ret := .ok msg.tunnelURL,
          connClosed := false, readLoopStarted := true, keepaliveStarted := true }

end tunnel

namespace mcp

/-- internal/mcp/server.go `Server`. The `executor`/`httpExecutor` fields are
stateless invoker objects whose side-effecting behaviour is supplied
separately as `Invokers`; only the config snapshot is server state. -/
structure Server where
  config : config.Config

/-- Oracles for the two side-effecting invokers held by the server: what
`s.executor.Execute` and `s.httpExecutor.Execute` return for a given tool and
argument map during the call under consideration. -/
structure Invokers where
  execProcess : config.Tool → Option Args → executor.Result
  execHTTP : config.Tool → Option Args → executor.Result

/-- internal/mcp/server.go `toolCallParams`. -/
structure toolCallParams where
  name : String
  arguments : Option Args

/-- `json.Unmarshal(req.Params, &params)` for `toolCallParams`: a nil
`RawMessage` (absent `params`) or a non-object (other than `null`) fails; on
an object, `name` must be a string and `arguments` an object (or `null`,
leaving the nil map). -/
def unmarshalToolCallParams : Option JValue → Except String toolCallParams
  | none => .error "unexpected end of JSON input"
  | some .null => .ok { name := "", arguments := none }
  | some (.obj fs) => do
      let n ← tunnel.getStringField fs "name"
      let a ← (match lookupLast fs "arguments" with
        | none => Except.ok none
        | some .null => Except.ok none
        | some (.obj afs) => Except.ok (some (objToMap afs))
        | some _ => Except.error "cannot unmarshal field arguments")
      .ok { name := n, arguments := a }
  | some _ => .error "cannot unmarshal into toolCallParams"

/-- internal/mcp/server.go `handleInitialize`. -/
def Server.handleInitialize (s : Server) (req : tunnel.MCPRequest) :
    Option tunnel.MCPResponse × Option String :=
  (some { jsonrpc := "2.0", id := req.id,
          result := some (.obj
            [("protocolVersion", .str "2024-11-05"),
             ("serverInfo", .obj
               [("name", .str s.config.name), ("version", .str s.config.version)]),
             ("capabilities", .obj [("tools", .obj [])])]),
          error := none }, none)

/-- The per-parameter property map built inside `handleToolsList`: `type` and
`description` always, `default` only when non-empty (a Go map assignment on a
fresh key). -/
def paramProp (p : config.Parameter) : JValue :=
  let prop := [("type", JValue.str p.type), ("description", JValue.str p.description)]
  let prop := if p.default != "" then setField prop "default" (.str p.default) else prop
  .obj prop

/-- The parameter loop of `handleToolsList`: fold the parameters into the
`properties` map (Go map assignment per parameter) and the `required` name
list (append per required parameter). -/
def buildSchemaProps (ps : List config.Parameter) :
    List (String × JValue) × List String :=
  ps.foldl
    (fun acc p =>
      (setField acc.1 p.name (paramProp p),
       if p.required then acc.2 ++ [p.name] else acc.2))
    ([], [])

/-- The `inputSchema` map of `handleToolsList`: object type, the properties
map, and the `required` array only when non-empty. -/
def inputSchema (ps : List config.Parameter) : JValue :=
  let props := buildSchemaProps ps
  let m := [("type", JValue.str "object"), ("properties", JValue.obj props.1)]
  let m :=
    if props.2.length > 0 then setField m "required" (.arr (props.2.map JValue.str))
    else m
  .obj m

/-- One entry of the `tools` array in `handleToolsList`. -/
def toolEntry (t : config.Tool) : JValue :=
  .obj [("name", .str t.name), ("description", .str t.description),
        ("inputSchema", inputSchema t.parameters)]

/-- internal/mcp/server.go `handleToolsList`: read the current config
snapshot and project every tool. -/
def Server.handleToolsList (s : Server) (req : tunnel.MCPRequest) :
    Option tunnel.MCPResponse × Option String :=
  (some { jsonrpc := "2.0", id := req.id,
          result := some (.obj [("tools", .arr (s.config.tools.map toolEntry))]),
          error := none }, none)

/-- internal/mcp/server.go `handleToolsCall`: decode the params (`-32602` on
failure), look the tool up in the current config (`-32602` "Tool not found"
when absent), invoke the HTTP or process executor by `IsHTTP`, then map the
result: content is `Error: <err>` only when the invocation errored with empty
output, otherwise the output text; `isError` is `ExitCode != 0`. -/
def Server.handleToolsCall (inv : Invokers) (s : Server) (req : tunnel.MCPRequest) :
    Option tunnel.MCPResponse × Option String :=
  match unmarshalToolCallParams req.params with
  | .error _ =>
      (some { jsonrpc := "2.0", id := req.id, result := none,
              error := some { code := -32602, message := "Invalid params", data := none } },
       none)
  | .ok params =>
      match s.config.GetTool params.name with
      | none =>
          (some { jsonrpc := "2.0", id := req.id, result := none,
                  error := some { code := -32602,
                                  message := "Tool not found: " ++ params.name,
                                  data := none } },
           none)
      | some tool =>
          let result :=
            if tool.IsHTTP then inv.execHTTP tool params.arguments
            else inv.execProcess tool params.arguments
          let contentText :=
            match result.error with
            | some e => if result.output = "" then "Error: " ++ e else result.output
            | none => result.output
          let content : List JValue :=
            [.obj [("type", .str "text"), ("text", .str contentText)]]
          (some { jsonrpc := "2.0", id := req.id,
                  result := some (.obj
                    [("content", .arr content),
                     ("isError", .bool (decide (result.exitCode ≠ 0)))]),
                  error := none }, none)

/-- internal/mcp/server.go `handlePing`. -/
def Server.handlePing (s : Server) (req : tunnel.MCPRequest) :
    Option tunnel.MCPResponse × Option String :=
  (some { jsonrpc := "2.0", id := req.id, result := some (.obj []), error := none }, none)

/-- internal/mcp/server.go `HandleRequest`: the method switch. -/
def Server.HandleRequest (inv : Invokers) (s : Server) (req : tunnel.MCPRequest) :
    Option tunnel.MCPResponse × Option String :=
  if req.method = "initialize" then s.handleInitialize req
  else if req.method = "tools/list" then s.handleToolsList req
  else if req.method = "tools/call" then s.handleToolsCall inv req
  else if req.method = "ping" then s.handlePing req
  else
    (some { jsonrpc := "2.0", id := req.id, result := none,
            error := some { code := -32601,
                            message := "Method not found: " ++ req.method,
                            data := none } }, none)

/-- Modelled from the spec: `Server.UpdateConfig` is called by `reloadConfig`
in cmd/gantz/main.go after every hot-reload but its definition is not among
the provided sources. Per the spec's Registry Swap Gate (`replace(new
Registry)` — "replacement is wholesale", visible to every subsequent read of
the current snapshot), it replaces the server's config snapshot with the
newly loaded one. -/
def Server.UpdateConfig (s : Server) (newCfg : config.Config) : Server :=
  { s with config := newCfg }

end mcp

/-! Helper lemmas about the association-list JSON-object model. -/

theorem foldl_lookupLast (k : String) (fs : List (String × JValue)) :
    ∀ acc : Option JValue,
      fs.foldl (fun a kv => if kv.1 = k then some kv.2 else a) acc
        = match lookupLast fs k with
          | some v => some v
          | none => acc := by
  induction fs with
  | nil => intro acc; simp [lookupLast]
  | cons kv rest ih =>
      intro acc
      simp only [lookupLast, List.foldl_cons] at *
      rw [ih (if kv.1 = k then some kv.2 else acc),
          ih (if kv.1 = k then some kv.2 else none)]
      cases hrest : rest.foldl (fun a kv => if kv.1 = k then some kv.2 else a) none with
      | some v => rfl
      | none => by_cases h : kv.1 = k <;> simp [h]

theorem lookupLast_cons (kv : String × JValue) (fs : List (String × JValue)) (k : String) :
    lookupLast (kv :: fs) k
      = match lookupLast fs k with
        | some v => some v
        | none => if kv.1 = k then some kv.2 else none := by
  have hstep : lookupLast (kv :: fs) k
      = fs.foldl (fun a kv => if kv.1 = k then some kv.2 else a)
          (if kv.1 = k then some kv.2 else none) := rfl
  rw [hstep, foldl_lookupLast k fs]

theorem lookupLast_of_forall_ne (fs : List (String × JValue)) (k : String)
    (h : ∀ kv ∈ fs, kv.1 ≠ k) : lookupLast fs k = none := by
  induction fs with
  | nil => rfl
  | cons kv rest ih =>
      rw [lookupLast_cons]
      rw [ih (fun x hx => h x (List.mem_cons_of_mem kv hx))]
      simp [h kv (List.mem_cons_self kv rest)]

theorem hasKey_append (a b : List (String × JValue)) (k : String) :
    hasKey (a ++ b) k = (hasKey a k || hasKey b k) := by
  simp [hasKey, List.any_append]

theorem setField_of_hasKey_eq_false (fs : List (String × JValue)) (k : String) (v : JValue)
    (h : hasKey fs k = false) : setField fs k v = fs ++ [(k, v)] := by
  simp [setField, h]

/-! Helper lemmas about the dispatcher and response marshalling. -/

theorem jsonField_marshal_id (r : tunnel.MCPResponse) (v : JValue) (h : r.id = some v) :
    jsonField (tunnel.marshalMCPResponse r) "id" = some v := by
  unfold tunnel.marshalMCPResponse jsonField
  rw [h]
  cases r.result <;> cases r.error <;> rfl

theorem handleToolsCall_ok (inv : mcp.Invokers) (s : mcp.Server) (req : tunnel.MCPRequest) :
    ∃ r, mcp.Server.handleToolsCall inv s req = (some r, none) ∧ r.id = req.id := by
  unfold mcp.Server.handleToolsCall
  cases hp : mcp.unmarshalToolCallParams req.params with
  | error e => exact ⟨_, rfl, rfl⟩
  | ok p =>
      dsimp only
      cases ht : s.config.GetTool p.name with
      | none => exact ⟨_, rfl, rfl⟩
      | some tool => exact ⟨_, rfl, rfl⟩

theorem HandleRequest_ok (inv : mcp.Invokers) (s : mcp.Server) (req : tunnel.MCPRequest) :
    ∃ r, mcp.Server.HandleRequest inv s req = (some r, none) ∧ r.id = req.id := by
  unfold mcp.Server.HandleRequest
  by_cases h1 : req.method = "initialize"
  · rw [if_pos h1]; exact ⟨_, rfl, rfl⟩
  rw [if_neg h1]
  by_cases h2 : req.method = "tools/list"
  · rw [if_pos h2]; exact ⟨_, rfl, rfl⟩
  rw [if_neg h2]
  by_cases h3 : req.method = "tools/call"
  · rw [if_pos h3]; exact handleToolsCall_ok inv s req
  rw [if_neg h3]
  by_cases h4 : req.method = "ping"
  · rw [if_pos h4]; exact ⟨_, rfl, rfl⟩
  rw [if_neg h4]; exact ⟨_, rfl, rfl⟩

/-! Helper lemmas about the schema projection of `handleToolsList`. -/

theorem paramProp_eq (p : config.Parameter) :
    mcp.paramProp p
      = .obj ([("type", JValue.str p.type), ("description", JValue.str p.description)]
          ++ (if p.default != "" then [("default", JValue.str p.default)] else [])) := by
  unfold mcp.paramProp
  by_cases h : p.default = "" <;> simp [h, setField, hasKey]

theorem buildSchemaProps_go (ps : List config.Parameter) :
    ∀ (acc : List (String × JValue)) (rq : List String),
      (ps.map (fun p => p.name)).Nodup →
      (∀ p ∈ ps, hasKey acc p.name = false) →
      ps.foldl
        (fun acc p =>
          (setField acc.1 p.name (mcp.paramProp p),
           if p.required then acc.2 ++ [p.name] else acc.2))
        (acc, rq)
      = (acc ++ ps.map (fun p => (p.name, mcp.paramProp p)),
         rq ++ (ps.filter (fun p => p.required)).map (fun p => p.name)) := by
  induction ps with
  | nil => intro acc rq _ _; simp
  | cons p rest ih =>
      intro acc rq hnd hdisj
      rw [List.foldl_cons]
      have hfresh : hasKey acc p.name = false := hdisj p (List.mem_cons_self p rest)
      have hset : setField acc p.name (mcp.paramProp p) = acc ++ [(p.name, mcp.paramProp p)] :=
        setField_of_hasKey_eq_false acc p.name (mcp.paramProp p) hfresh
      have hnd_rest : (rest.map (fun p => p.name)).Nodup := (List.nodup_cons.mp hnd).2
      have hnot : p.name ∉ rest.map (fun p => p.name) := (List.nodup_cons.mp hnd).1
      have hdisj_rest : ∀ q ∈ rest, hasKey (acc ++ [(p.name, mcp.paramProp p)]) q.name = false := by
        intro q hq
        rw [hasKey_append]
        have h1 : hasKey acc q.name = false := hdisj q (List.mem_cons_of_mem p hq)
        have h2 : hasKey [(p.name, mcp.paramProp p)] q.name = false := by
          simp only [hasKey, List.any_cons, List.any_nil, Bool.or_false]
          have : p.name ≠ q.name := by
            intro hEq
            exact hnot (hEq ▸ List.mem_map_of_mem (fun p => p.name) hq)
          simpa using this
        simp [h1, h2]
      rcases hreq : p.required with _ | _
      · dsimp only
        rw [if_neg (by decide), hset,
          ih (acc ++ [(p.name, mcp.paramProp p)]) rq hnd_rest hdisj_rest]
        simp [hreq, List.append_assoc]
      · dsimp only
        rw [if_pos rfl, hset,
          ih (acc ++ [(p.name, mcp.paramProp p)]) (rq ++ [p.name]) hnd_rest hdisj_rest]
        simp [hreq, List.append_assoc]

theorem buildSchemaProps_spec (ps : List config.Parameter)
    (hnd : (ps.map (fun p => p.name)).Nodup) :
    mcp.buildSchemaProps ps
      = (ps.map (fun p => (p.name, mcp.paramProp p)),
         (ps.filter (fun p => p.required)).map (fun p => p.name)) := by
  unfold mcp.buildSchemaProps
  have := buildSchemaProps_go ps [] [] hnd (fun p _ => rfl)
  simpa using this

theorem lookupLast_props_of_nodup (ps : List config.Parameter)
    (hnd : (ps.map (fun p => p.name)).Nodup) (p : config.Parameter) (hp : p ∈ ps) :
    lookupLast (ps.map (fun q => (q.name, mcp.paramProp q))) p.name
      = some (mcp.paramProp p) := by
  induction ps with
  | nil => cases hp
  | cons q rest ih =>
      rw [List.map_cons, lookupLast_cons]
      rcases List.mem_cons.mp hp with hEq | hMem
      · subst hEq
        have hnone : lookupLast (rest.map (fun q => (q.name, mcp.paramProp q))) p.name = none := by
          apply lookupLast_of_forall_ne
          intro kv hkv hk
          rcases List.mem_map.mp hkv with ⟨r, hr, hkv_eq⟩
          have hrp : r.name = p.name := by rw [← hkv_eq] at hk; exact hk
          have hmem : p.name ∈ rest.map (fun p => p.name) := by
            rw [← hrp]; exact List.mem_map_of_mem (fun p => p.name) hr
          exact (List.nodup_cons.mp hnd).1 hmem
        rw [hnone]
        simp
      · have := ih (List.nodup_cons.mp hnd).2 hMem
        rw [this]

/-! Concrete fixtures used by the witnesses. -/

/-- An empty script configuration. -/
def emptyScript : config.ScriptConfig :=
  { command := "", args := [], shell := "", workingDir := "", timeout := "" }

/-- An empty HTTP configuration (`url = ""`, so `IsHTTP` is false). -/
def emptyHTTP : config.HTTPConfig :=
  { method := "", url := "", headers := [], body := "", timeout := "", extractJSON := "" }

/-- The `hello` sample tool from the generated gantz.yaml: a shell script with
one required `name` parameter. -/
def helloTool : config.Tool :=
  { name := "hello", description := "Say hello to someone",
    parameters := [{ name := "name", type := "string",
                     description := "Name of the person to greet",
                     required := true, default := "" }],
    script := { emptyScript with shell := "echo hi" },
    http := emptyHTTP, environment := [] }

/-- The `get_weather` sample tool: an HTTP tool (`url` non-empty). -/
def weatherTool : config.Tool :=
  { name := "get_weather", description := "Get weather for a city",
    parameters := [{ name := "city", type := "string", description := "",
                     required := true, default := "" }],
    script := emptyScript,
    http := { emptyHTTP with method := "GET", url := "https://api.example.com/weather" },
    environment := [] }

/-- A concrete loaded configuration with one script tool and one HTTP tool. -/
def cfgExample : config.Config :=
  { name := "my-tools", description := "", version := "1.0.0",
    server := { port := 3000 }, tools := [helloTool, weatherTool] }

/-- A second configuration, used as the pre-reload registry. -/
def cfgOld : config.Config :=
  { name := "my-tools", description := "", version := "0.9.0",
    server := { port := 3000 }, tools := [helloTool] }

/-- Invokers whose executions all succeed with empty output. -/
def trivInv : mcp.Invokers :=
  { execProcess := fun _ _ => { output := "", exitCode := 0, error := none },
    execHTTP := fun _ _ => { output := "", exitCode := 0, error := none } }

/-! Claim theorems. -/

/-- C1: a `tools/list` call made after an `UpdateConfig` swap is handled
against exactly the new registry snapshot — its result is the projection of
the new config's tools, with no trace of the old snapshot — and `tools/call`
dispatch (including the not-found check) likewise reads the swapped-in
config. -/
theorem c1_tools_list_reads_current_registry (inv : mcp.Invokers)
    (oldCfg newCfg : config.Config) (req : tunnel.MCPRequest) :
    mcp.Server.handleToolsList (mcp.Server.UpdateConfig ⟨oldCfg⟩ newCfg) req
      = mcp.Server.handleToolsList ⟨newCfg⟩ req
    ∧ (mcp.Server.handleToolsList (mcp.Server.UpdateConfig ⟨oldCfg⟩ newCfg) req).1
      = some { jsonrpc := "2.0", id := req.id,
               result := some (.obj [("tools", .arr (newCfg.tools.map mcp.toolEntry))]),
               error := none }
    ∧ mcp.Server.handleToolsCall inv (mcp.Server.UpdateConfig ⟨oldCfg⟩ newCfg) req
      = mcp.Server.handleToolsCall inv ⟨newCfg⟩ req := by
  exact ⟨rfl, rfl, rfl⟩

/-- C2: for every envelope whose payload decodes to an RPC request carrying
an `id`, the response envelope written back by the multiplexer (running the
dispatcher from internal/mcp) carries the identical `id` in its marshalled
payload. -/
theorem c2_response_echoes_id (inv : mcp.Invokers) (s : mcp.Server)
    (msg : tunnel.TunnelMessage) (req : tunnel.MCPRequest) (v : JValue)
    (hdec : tunnel.unmarshalMCPRequest msg.payload = .ok req)
    (hid : req.id = some v) :
    ∃ j, (tunnel.Client.handleRequest (mcp.Server.HandleRequest inv s) msg).payload = some j
      ∧ jsonField j "id" = some v := by
  obtain ⟨r, hr, hrid⟩ := HandleRequest_ok inv s req
  unfold tunnel.Client.handleRequest
  rw [hdec]
  dsimp only
  rw [hr]
  refine ⟨tunnel.marshalMCPResponse r, rfl, ?_⟩
  exact jsonField_marshal_id r v (hrid.trans hid)

/-- C2 witness: a concrete `ping` request with `id = 1` gets a response whose
payload carries `id = 1`. -/
theorem c2_witness :
    ∃ j, (tunnel.Client.handleRequest (mcp.Server.HandleRequest trivInv ⟨cfgExample⟩)
            { type := "request", requestID := "r1",
              payload := some (.obj [("id", .num 1), ("method", .str "ping")]) }).payload
          = some j
      ∧ jsonField j "id" = some (.num 1) :=
  c2_response_echoes_id trivInv ⟨cfgExample⟩
    { type := "request", requestID := "r1",
      payload := some (.obj [("id", .num 1), ("method", .str "ping")]) }
    { jsonrpc := "", id := some (.num 1), method := "ping", params := none }
    (.num 1) rfl rfl

/-- C3 counterexample: the claim says a session-fatal read-loop termination
(transport read failure) makes `Wait()` return a descriptive non-nil error;
but at the concrete fatal exit below, `Wait` (which is `<-c.done; return nil`
in the source) returns nil — there is no error it could return. -/
theorem c3_counterexample :
    ¬ ∃ m, tunnel.Client.Wait
        (.errorLogged "websocket: close 1006 (abnormal closure): unexpected EOF")
      = some m := by
  rintro ⟨m, h⟩
  exact Option.noConfusion h

/-- C3 amended: `Wait` returns once the read loop has terminated, and its
return value is nil for every termination cause — session-fatal read errors
included; the read loop only prints them. -/
theorem c3_wait_returns_nil_after_loop_exit
    (handler : tunnel.MCPRequest → Option tunnel.MCPResponse × Option String)
    (cb : Bool) (events : List tunnel.ReadEvent)
    (effs : List tunnel.LoopEffect) (exit : tunnel.LoopExit)
    (hloop : tunnel.Client.handleMessages handler cb events = (effs, some exit)) :
    tunnel.Client.Wait exit = none := rfl

/-- C3 witness: a read loop fed a single failing read terminates with that
error logged, and `Wait` still returns nil. -/
theorem c3_witness :
    tunnel.Client.handleMessages (mcp.Server.HandleRequest trivInv ⟨cfgExample⟩) false
        [.readError "read tcp: connection reset by peer"]
      = ([], some (.errorLogged "read tcp: connection reset by peer"))
    ∧ tunnel.Client.Wait (.errorLogged "read tcp: connection reset by peer") = none :=
  ⟨rfl, c3_wait_returns_nil_after_loop_exit
      (mcp.Server.HandleRequest trivInv ⟨cfgExample⟩) false
      [.readError "read tcp: connection reset by peer"] []
      (.errorLogged "read tcp: connection reset by peer") rfl⟩

/-- C4: the dispatcher's error-code mapping — an unrecognized method yields
`-32601` with the method named in the message; `tools/call` params that fail
to decode yield `-32602`; a `tools/call` naming a tool absent from the
current config yields `-32602` naming it; and an envelope payload that does
not decode as an RPC request yields `-32700` on an envelope correlated to
the original `request_id`. -/
theorem c4_error_code_mapping (inv : mcp.Invokers) (s : mcp.Server) :
    (∀ req : tunnel.MCPRequest,
        req.method ≠ "initialize" → req.method ≠ "tools/list" →
        req.method ≠ "tools/call" → req.method ≠ "ping" →
        (mcp.Server.HandleRequest inv s req).1
          = some { jsonrpc := "2.0", id := req.id, result := none,
                   error := some { code := -32601,
                                   message := "Method not found: " ++ req.method,
                                   data := none } })
    ∧ (∀ (req : tunnel.MCPRequest) (e : String), req.method = "tools/call" →
        mcp.unmarshalToolCallParams req.params = .error e →
        (mcp.Server.HandleRequest inv s req).1
          = some { jsonrpc := "2.0", id := req.id, result := none,
                   error := some { code := -32602, message := "Invalid params",
                                   data := none } })
    ∧ (∀ (req : tunnel.MCPRequest) (p : mcp.toolCallParams),
        req.method = "tools/call" →
        mcp.unmarshalToolCallParams req.params = .ok p →
        s.config.GetTool p.name = none →
        (mcp.Server.HandleRequest inv s req).1
          = some { jsonrpc := "2.0", id := req.id, result := none,
                   error := some { code := -32602,
                                   message := "Tool not found: " ++ p.name,
                                   data := none } })
    ∧ (∀ (msg : tunnel.TunnelMessage) (e : String),
        tunnel.unmarshalMCPRequest msg.payload = .error e →
        tunnel.Client.handleRequest (mcp.Server.HandleRequest inv s) msg
          = tunnel.sendError msg.requestID (-32700) "Parse error"
        ∧ (tunnel.Client.handleRequest (mcp.Server.HandleRequest inv s) msg).requestID
          = msg.requestID) := by
  refine ⟨?_, ?_, ?_, ?_⟩
  · intro req h1 h2 h3 h4
    unfold mcp.Server.HandleRequest
    rw [if_neg h1, if_neg h2, if_neg h3, if_neg h4]
  · intro req e hm hp
    unfold mcp.Server.HandleRequest
    rw [hm, if_neg (by decide), if_neg (by decide), if_pos rfl]
    unfold mcp.Server.handleToolsCall
    rw [hp]
  · intro req p hm hp ht
    unfold mcp.Server.HandleRequest
    rw [hm, if_neg (by decide), if_neg (by decide), if_pos rfl]
    unfold mcp.Server.handleToolsCall
    rw [hp]
    dsimp only
    rw [ht]
  · intro msg e hdec
    unfold tunnel.Client.handleRequest
    rw [hdec]
    exact ⟨rfl, rfl⟩

/-- C4 witness: the four error paths exercised at concrete inputs — an
unknown method `foo/bar`, a `tools/call` whose params are a JSON string, a
`tools/call` naming the absent tool `missing`, and an envelope whose payload
is a bare JSON number. -/
theorem c4_witness :
    ((mcp.Server.HandleRequest trivInv ⟨cfgExample⟩
        { jsonrpc := "2.0", id := some (.num 5), method := "foo/bar", params := none }).1
      = some { jsonrpc := "2.0", id := some (.num 5), result := none,
               error := some { code := -32601, message := "Method not found: foo/bar",
                               data := none } })
    ∧ ((mcp.Server.HandleRequest trivInv ⟨cfgExample⟩
        { jsonrpc := "2.0", id := some (.num 6), method := "tools/call",
          params := some (.str "junk") }).1
      = some { jsonrpc := "2.0", id := some (.num 6), result := none,
               error := some { code := -32602, message := "Invalid params",
                               data := none } })
    ∧ ((mcp.Server.HandleRequest trivInv ⟨cfgExample⟩
        { jsonrpc := "2.0", id := some (.num 7), method := "tools/call",
          params := some (.obj [("name", .str "missing")]) }).1
      = some { jsonrpc := "2.0", id := some (.num 7), result := none,
               error := some { code := -32602, message := "Tool not found: missing",
                               data := none } })
    ∧ (tunnel.Client.handleRequest (mcp.Server.HandleRequest trivInv ⟨cfgExample⟩)
          { type := "request", requestID := "r9", payload := some (.num 3) }
        = tunnel.sendError "r9" (-32700) "Parse error") :=
  ⟨(c4_error_code_mapping trivInv ⟨cfgExample⟩).1
      { jsonrpc := "2.0", id := some (.num 5), method := "foo/bar", params := none }
      (by decide) (by decide) (by decide) (by decide),
   (c4_error_code_mapping trivInv ⟨cfgExample⟩).2.1
      { jsonrpc := "2.0", id := some (.num 6), method := "tools/call",
        params := some (.str "junk") }
      "cannot unmarshal into toolCallParams" rfl rfl,
   (c4_error_code_mapping trivInv ⟨cfgExample⟩).2.2.1
      { jsonrpc := "2.0", id := some (.num 7), method := "tools/call",
        params := some (.obj [("name", .str "missing")]) }
      { name := "missing", arguments := none } rfl rfl rfl,
   ((c4_error_code_mapping trivInv ⟨cfgExample⟩).2.2.2
      { type := "request", requestID := "r9", payload := some (.num 3) }
      "cannot unmarshal into MCPRequest" rfl).1⟩

/-- C5: for a well-formed `tools/call` naming an existing tool, the
response's `isError` flag is true exactly when the invocation result's exit
code is non-zero. -/
theorem c5_isError_iff_nonzero_exit (inv : mcp.Invokers) (s : mcp.Server)
    (req : tunnel.MCPRequest) (p : mcp.toolCallParams) (tool : config.Tool)
    (hm : req.method = "tools/call")
    (hp : mcp.unmarshalToolCallParams req.params = .ok p)
    (ht : s.config.GetTool p.name = some tool) :
    ∃ r b, mcp.Server.HandleRequest inv s req = (some r, none)
      ∧ jsonField (r.result.getD .null) "isError" = some (.bool b)
      ∧ (b = true
          ↔ (if tool.IsHTTP then inv.execHTTP tool p.arguments
             else inv.execProcess tool p.arguments).exitCode ≠ 0) := by
  unfold mcp.Server.HandleRequest
  rw [hm, if_neg (by decide), if_neg (by decide), if_pos rfl]
  unfold mcp.Server.handleToolsCall
  rw [hp]
  dsimp only
  rw [ht]
  refine ⟨_, decide ((if tool.IsHTTP then inv.execHTTP tool p.arguments
                      else inv.execProcess tool p.arguments).exitCode ≠ 0), rfl, rfl, ?_⟩
  exact decide_eq_true_iff

/-- C5 witness: calling the `hello` tool with an invoker that exits with
code 2 produces `isError = true`. -/
theorem c5_witness :
    ∃ r b,
      mcp.Server.HandleRequest
          { execProcess := fun _ _ => { output := "boom", exitCode := 2, error := none },
            execHTTP := fun _ _ => { output := "", exitCode := 0, error := none } }
          ⟨cfgExample⟩
          { jsonrpc := "2.0", id := some (.num 3), method := "tools/call",
            params := some (.obj [("name", .str "hello"),
                                  ("arguments", .obj [("name", .str "World")])]) }
        = (some r, none)
      ∧ jsonField (r.result.getD .null) "isError" = some (.bool b)
      ∧ (b = true
          ↔ (if helloTool.IsHTTP
             then ({ execProcess := fun _ _ => { output := "boom", exitCode := 2, error := none },
                     execHTTP := fun _ _ => { output := "", exitCode := 0, error := none } }
                    : mcp.Invokers).execHTTP helloTool (some [("name", .str "World")])
             else ({ execProcess := fun _ _ => { output := "boom", exitCode := 2, error := none },
                     execHTTP := fun _ _ => { output := "", exitCode := 0, error := none } }
                    : mcp.Invokers).execProcess helloTool (some [("name", .str "World")])).exitCode
            ≠ 0) :=
  c5_isError_iff_nonzero_exit
    { execProcess := fun _ _ => { output := "boom", exitCode := 2, error := none },
      execHTTP := fun _ _ => { output := "", exitCode := 0, error := none } }
    ⟨cfgExample⟩
    { jsonrpc := "2.0", id := some (.num 3), method := "tools/call",
      params := some (.obj [("name", .str "hello"),
                            ("arguments", .obj [("name", .str "World")])]) }
    { name := "hello", arguments := some [("name", .str "World")] }
    helloTool rfl rfl rfl

theorem inputSchema_spec (ps : List config.Parameter)
    (hnd : (ps.map (fun p => p.name)).Nodup) :
    jsonField (mcp.inputSchema ps) "type" = some (.str "object")
    ∧ jsonField (mcp.inputSchema ps) "properties"
        = some (.obj (ps.map (fun p => (p.name, mcp.paramProp p))))
    ∧ ((ps.filter (fun p => p.required)) = []
        → jsonField (mcp.inputSchema ps) "required" = none)
    ∧ ((ps.filter (fun p => p.required)) ≠ []
        → jsonField (mcp.inputSchema ps) "required"
          = some (.arr (((ps.filter (fun p => p.required)).map (fun p => p.name)).map
              JValue.str))) := by
  have hspec := buildSchemaProps_spec ps hnd
  unfold mcp.inputSchema
  rw [hspec]
  dsimp only
  by_cases hf : (ps.filter (fun p => p.required)) = []
  · rw [hf]
    exact ⟨rfl, rfl, fun _ => rfl, fun hne => absurd rfl hne⟩
  · have hlen : (List.map (fun p => p.name) (ps.filter (fun p => p.required))).length > 0 := by
      apply List.length_pos.mpr
      intro hmapnil
      exact hf (List.map_eq_nil_iff.mp hmapnil)
    rw [if_pos hlen]
    have hsf := setField_of_hasKey_eq_false
      [("type", JValue.str "object"),
       ("properties", JValue.obj (ps.map (fun p => (p.name, mcp.paramProp p))))]
      "required"
      (JValue.arr ((List.map (fun p => p.name) (ps.filter (fun p => p.required))).map JValue.str))
      rfl
    rw [hsf]
    exact ⟨rfl, rfl, fun h => absurd h hf, fun _ => rfl⟩

/-- C6: `tools/list` returns one entry per tool of the current config; each
entry's input schema is of object type with one property per declared
parameter (carrying `type`, `description`, and `default` only when the
default is non-empty) and a `required` array holding exactly the names of
the required parameters, omitted when no parameter is required. Parameter
names are assumed unique per tool, the spec's Action invariant (a Go map
would silently collapse duplicates). -/
theorem c6_tools_list_schema (s : mcp.Server) (req : tunnel.MCPRequest)
    (hnd : ∀ t ∈ s.config.tools, ((t.parameters.map (fun p => p.name)).Nodup)) :
    ∃ r, mcp.Server.handleToolsList s req = (some r, none)
      ∧ r.result = some (.obj [("tools", .arr (s.config.tools.map mcp.toolEntry))])
      ∧ (s.config.tools.map mcp.toolEntry).length = s.config.tools.length
      ∧ ∀ t ∈ s.config.tools,
          jsonField (mcp.toolEntry t) "name" = some (.str t.name)
          ∧ jsonField (mcp.toolEntry t) "description" = some (.str t.description)
          ∧ jsonField (mcp.toolEntry t) "inputSchema" = some (mcp.inputSchema t.parameters)
          ∧ jsonField (mcp.inputSchema t.parameters) "type" = some (.str "object")
          ∧ (∃ props,
              jsonField (mcp.inputSchema t.parameters) "properties" = some (.obj props)
              ∧ props.length = t.parameters.length
              ∧ ∀ p ∈ t.parameters,
                  lookupLast props p.name
                    = some (.obj ([("type", JValue.str p.type),
                                   ("description", JValue.str p.description)]
                        ++ (if p.default != "" then [("default", JValue.str p.default)]
                            else []))))
          ∧ ((t.parameters.filter (fun p => p.required)) = []
              → jsonField (mcp.inputSchema t.parameters) "required" = none)
          ∧ ((t.parameters.filter (fun p => p.required)) ≠ []
              → jsonField (mcp.inputSchema t.parameters) "required"
                = some (.arr (((t.parameters.filter (fun p => p.required)).map
                    (fun p => p.name)).map JValue.str))) := by
  refine ⟨_, rfl, rfl, by simp, ?_⟩
  intro t ht
  obtain ⟨hty, hprops, hreq_nil, hreq_ne⟩ := inputSchema_spec t.parameters (hnd t ht)
  refine ⟨rfl, rfl, rfl, hty, ?_, hreq_nil, hreq_ne⟩
  refine ⟨t.parameters.map (fun p => (p.name, mcp.paramProp p)), hprops, by simp, ?_⟩
  intro p hp
  rw [lookupLast_props_of_nodup t.parameters (hnd t ht) p hp, paramProp_eq]

/-- C6 witness: the example config (a script tool with one required
parameter and an HTTP tool) satisfies the projection property. -/
theorem c6_witness :
    (∀ t ∈ cfgExample.tools, ((t.parameters.map (fun p => p.name)).Nodup))
    ∧ ∃ r, mcp.Server.handleToolsList ⟨cfgExample⟩
          { jsonrpc := "2.0", id := some (.num 2), method := "tools/list", params := none }
        = (some r, none)
      ∧ r.result = some (.obj [("tools", .arr (cfgExample.tools.map mcp.toolEntry))])
      ∧ (cfgExample.tools.map mcp.toolEntry).length = cfgExample.tools.length
      ∧ ∀ t ∈ cfgExample.tools,
          jsonField (mcp.toolEntry t) "name" = some (.str t.name)
          ∧ jsonField (mcp.toolEntry t) "description" = some (.str t.description)
          ∧ jsonField (mcp.toolEntry t) "inputSchema" = some (mcp.inputSchema t.parameters)
          ∧ jsonField (mcp.inputSchema t.parameters) "type" = some (.str "object")
          ∧ (∃ props,
              jsonField (mcp.inputSchema t.parameters) "properties" = some (.obj props)
              ∧ props.length = t.parameters.length
              ∧ ∀ p ∈ t.parameters,
                  lookupLast props p.name
                    = some (.obj ([("type", JValue.str p.type),
                                   ("description", JValue.str p.description)]
                        ++ (if p.default != "" then [("default", JValue.str p.default)]
                            else []))))
          ∧ ((t.parameters.filter (fun p => p.required)) = []
              → jsonField (mcp.inputSchema t.parameters) "required" = none)
          ∧ ((t.parameters.filter (fun p => p.required)) ≠ []
              → jsonField (mcp.inputSchema t.parameters) "required"
                = some (.arr (((t.parameters.filter (fun p => p.required)).map
                    (fun p => p.name)).map JValue.str))) :=
  ⟨by decide,
   c6_tools_list_schema ⟨cfgExample⟩
     { jsonrpc := "2.0", id := some (.num 2), method := "tools/list", params := none }
     (by decide)⟩

/-- C7: if the first frame read after dialing is not of type `registered`,
`Connect` returns a non-nil error naming the unexpected type, closes the
socket, and starts neither the read loop nor the keepalive loop. -/
theorem c7_handshake_rejection (msg : tunnel.TunnelMessage)
    (h : msg.type ≠ "registered") :
    tunnel.Client.Connect (.connected (.ok msg))
      = { ret := .error ("unexpected message type: " ++ msg.type),
          connClosed := true, readLoopStarted := false, keepaliveStarted := false } := by
  unfold tunnel.Client.Connect
  dsimp only
  rw [if_pos h]

/-- C7 witness: a handshake frame of type `error` makes `Connect` fail with
the socket closed and no background loops started. -/
theorem c7_witness :
    tunnel.Client.Connect (.connected (.ok { type := "error", error := "tunnel limit" }))
      = { ret := .error "unexpected message type: error",
          connClosed := true, readLoopStarted := false, keepaliveStarted := false } :=
  c7_handshake_rejection { type := "error", error := "tunnel limit" } (by decide)

/-- C8: the dispatcher never fails the outer call — for every request it
returns a non-nil response paired with a nil error — and therefore the
multiplexer's `-32603` branch is never taken when the payload decodes: the
written envelope is always `sendResponse` of the dispatcher's own response. -/
theorem c8_dispatcher_never_fails_outer_call (inv : mcp.Invokers) (s : mcp.Server) :
    (∀ req : tunnel.MCPRequest, ∃ r, mcp.Server.HandleRequest inv s req = (some r, none))
    ∧ (∀ (msg : tunnel.TunnelMessage) (req : tunnel.MCPRequest),
        tunnel.unmarshalMCPRequest msg.payload = .ok req →
        tunnel.Client.handleRequest (mcp.Server.HandleRequest inv s) msg
          = tunnel.sendResponse msg.requestID (mcp.Server.HandleRequest inv s req).1) := by
  constructor
  · intro req
    obtain ⟨r, hr, _⟩ := HandleRequest_ok inv s req
    exact ⟨r, hr⟩
  · intro msg req hdec
    obtain ⟨r, hr, _⟩ := HandleRequest_ok inv s req
    unfold tunnel.Client.handleRequest
    rw [hdec]
    dsimp only
    rw [hr]

/-- C8 witness: at a concrete `tools/list` request the dispatcher returns a
response with nil outer error and the multiplexer wraps exactly that
response. -/
theorem c8_witness :
    (∃ r, mcp.Server.HandleRequest trivInv ⟨cfgExample⟩
        { jsonrpc := "2.0", id := some (.num 4), method := "tools/list", params := none }
      = (some r, none))
    ∧ tunnel.Client.handleRequest (mcp.Server.HandleRequest trivInv ⟨cfgExample⟩)
        { type := "request", requestID := "r4",
          payload := some (.obj [("id", .num 4), ("method", .str "tools/list")]) }
      = tunnel.sendResponse "r4"
          (mcp.Server.HandleRequest trivInv ⟨cfgExample⟩
            { jsonrpc := "", id := some (.num 4), method := "tools/list",
              params := none }).1 :=
  ⟨(c8_dispatcher_never_fails_outer_call trivInv ⟨cfgExample⟩).1
     { jsonrpc := "2.0", id := some (.num 4), method := "tools/list", params := none },
   (c8_dispatcher_never_fails_outer_call trivInv ⟨cfgExample⟩).2
     { type := "request", requestID := "r4",
       payload := some (.obj [("id", .num 4), ("method", .str "tools/list")]) }
     { jsonrpc := "", id := some (.num 4), method := "tools/list", params := none }
     rfl⟩

/-- C9: when an HTTP tool's request is created, executed, and its body read
successfully, the invocation result's exit code is 1 exactly when the HTTP
status is at least 400 (0 otherwise), and the `tools/call` response's
`isError` flag is therefore true exactly on 4xx/5xx statuses. -/
theorem c9_http_status_drives_isError (inv : mcp.Invokers) (s : mcp.Server)
    (req : tunnel.MCPRequest) (p : mcp.toolCallParams) (tool : config.Tool)
    (status : Int) (output : String)
    (hm : req.method = "tools/call")
    (hp : mcp.unmarshalToolCallParams req.params = .ok p)
    (ht : s.config.GetTool p.name = some tool)
    (hhttp : tool.IsHTTP = true)
    (hexec : inv.execHTTP tool p.arguments
      = executor.HTTPExecutor.Execute (.success status output)) :
    (executor.HTTPExecutor.Execute (.success status output)).exitCode
        = (if status ≥ 400 then 1 else 0)
    ∧ ∃ r b, mcp.Server.HandleRequest inv s req = (some r, none)
        ∧ jsonField (r.result.getD .null) "isError" = some (.bool b)
        ∧ (b = true ↔ status ≥ 400) := by
  refine ⟨rfl, ?_⟩
  unfold mcp.Server.HandleRequest
  rw [hm, if_neg (by decide), if_neg (by decide), if_pos rfl]
  unfold mcp.Server.handleToolsCall
  rw [hp]
  dsimp only
  rw [ht]
  dsimp only
  rw [hhttp, if_pos rfl, hexec]
  refine ⟨_, _, rfl, rfl, ?_⟩
  unfold executor.HTTPExecutor.Execute
  dsimp only
  by_cases hs : status ≥ 400
  · rw [if_pos hs]
    simpa using hs
  · rw [if_neg hs]
    simpa using hs

/-- C9 witness: a `tools/call` to the HTTP tool whose request completed with
status 500 yields `isError = true`. -/
theorem c9_witness :
    ((executor.HTTPExecutor.Execute (.success 500 "oops")).exitCode
      = (if (500 : Int) ≥ 400 then 1 else 0))
    ∧ ∃ r b,
        mcp.Server.HandleRequest
            { execProcess := fun _ _ => { output := "", exitCode := 0, error := none },
              execHTTP := fun _ _ => executor.HTTPExecutor.Execute (.success 500 "oops") }
            ⟨cfgExample⟩
            { jsonrpc := "2.0", id := some (.num 8), method := "tools/call",
              params := some (.obj [("name", .str "get_weather")]) }
          = (some r, none)
        ∧ jsonField (r.result.getD .null) "isError" = some (.bool b)
        ∧ (b = true ↔ (500 : Int) ≥ 400) :=
  c9_http_status_drives_isError
    { execProcess := fun _ _ => { output := "", exitCode := 0, error := none },
      execHTTP := fun _ _ => executor.HTTPExecutor.Execute (.success 500 "oops") }
    ⟨cfgExample⟩
    { jsonrpc := "2.0", id := some (.num 8), method := "tools/call",
      params := some (.obj [("name", .str "get_weather")]) }
    { name := "get_weather", arguments := none }
    weatherTool 500 "oops" rfl rfl rfl rfl rfl

/-- C10: a process invocation's textual output is the whitespace-trimmed
concatenation of stdout then stderr, joined by a newline exactly when both
are non-empty — independent of whether the command succeeded, exited
non-zero, or failed outright. -/
theorem c10_process_output_merge (stdout stderr : String)
    (runError : Option executor.RunError) :
    (executor.Executor.Execute stdout stderr runError).output
      = executor.trimSpace
          (if stderr = "" then stdout
           else if stdout = "" then stderr
           else stdout ++ "\n" ++ stderr) := by
  unfold executor.Executor.Execute
  rcases runError with _ | re
  · by_cases h1 : stderr = "" <;> by_cases h2 : stdout = "" <;>
      simp [h1, h2]
  · rcases re with ⟨code, msg⟩ | ⟨msg⟩ <;>
      by_cases h1 : stderr = "" <;> by_cases h2 : stdout = "" <;>
      simp [h1, h2]
